import Mathlib

/-!
Shallow embedding of the Cybertronian calendar engine of this repository
(the script defining `parseCybertronianDate`, `cyberDateToEarthSeconds`,
`earthSecondsToCyberDate`, `formatCyberDate`, `parseHumanTime`,
`differenceBetweenDates` and the add/subtract form handlers).
JavaScript numbers are modelled as exact rationals; JavaScript `null`
is modelled by `Option.none`.
-/

namespace CyberTime

/-- Source constant: EARTH_YEAR_IN_DAYS = 365.25. -/
def EARTH_YEAR_IN_DAYS : ℚ := 365.25

/-- Source constant: SOLAR_CYCLE_YEARS = 10. -/
def SOLAR_CYCLE_YEARS : ℚ := 10

/-- Source constant: SOLAR_CYCLE_DAYS = SOLAR_CYCLE_YEARS * EARTH_YEAR_IN_DAYS. -/
def SOLAR_CYCLE_DAYS : ℚ := SOLAR_CYCLE_YEARS * EARTH_YEAR_IN_DAYS

/-- Source constant: CYCLE = SOLAR_CYCLE_DAYS / 1000. -/
def CYCLE : ℚ := SOLAR_CYCLE_DAYS / 1000

/-- Source constant: CHORD = CYCLE / 10 * 100. -/
def CHORD : ℚ := CYCLE / 10 * 100

/-- Source constant: KLIK = CYCLE / 1000. -/
def KLIK : ℚ := CYCLE / 1000

/-- Source constant: ASTROSECOND = KLIK / 1000. -/
def ASTROSECOND : ℚ := KLIK / 1000

/-- Source constant: ZETASECOND = ASTROSECOND / 100. -/
def ZETASECOND : ℚ := ASTROSECOND / 100

/-- The object `{ klik, chord, cycle, solarCycle }` built by the source,
each field a number or `null`. -/
structure CyberDate where
  klik : Option ℚ
  chord : Option ℚ
  cycle : Option ℚ
  solarCycle : Option ℚ
deriving DecidableEq

/-- Source `cyberDateToEarthSeconds`: accumulates `totalDays` from each
non-null field (null contributes nothing) and returns `totalDays * 86400`. -/
def cyberDateToEarthSeconds (date : CyberDate) : ℚ :=
  let totalDays : ℚ :=
    (match date.solarCycle with
      | some v => v * SOLAR_CYCLE_DAYS
      | none => 0)
    + (match date.cycle with
      | some v => v * CYCLE
      | none => 0)
    + (match date.chord with
      | some v => v * (CYCLE / 10)
      | none => 0)
    + (match date.klik with
      | some v => v * (CYCLE / 1000)
      | none => 0)
  totalDays * 86400

/-- Source `earthSecondsToCyberDate`: successive floored division of the
day count by SOLAR_CYCLE_DAYS, CYCLE, CYCLE/10, CYCLE/1000, subtracting
each quotient's contribution before the next division. -/
def earthSecondsToCyberDate (seconds : ℚ) : CyberDate :=
  let totalDays0 := seconds / 86400
  let solarCycle := ⌊totalDays0 / SOLAR_CYCLE_DAYS⌋
  let totalDays1 := totalDays0 - solarCycle * SOLAR_CYCLE_DAYS
  let cycle := ⌊totalDays1 / CYCLE⌋
  let totalDays2 := totalDays1 - cycle * CYCLE
  let chord := ⌊totalDays2 / (CYCLE / 10)⌋
  let totalDays3 := totalDays2 - chord * (CYCLE / 10)
  let klik := ⌊totalDays3 / (CYCLE / 1000)⌋
  { klik := some (klik : ℚ), chord := some (chord : ℚ),
    cycle := some (cycle : ℚ), solarCycle := some (solarCycle : ℚ) }

/-- Decimal digit character for a value below ten. -/
def digitChar (n : ℕ) : Char := Char.ofNat (48 + n)

/-- Decimal digits of a natural number, most significant first
(fuel-driven recursion; the fuel `n + 1` always suffices). -/
def natDigitsAux : ℕ → ℕ → List Char
  | 0, _ => []
  | fuel + 1, n =>
    if n < 10 then [digitChar n]
    else natDigitsAux fuel (n / 10) ++ [digitChar (n % 10)]

/-- Decimal digit characters of a natural number. -/
def natToChars (n : ℕ) : List Char := natDigitsAux (n + 1) n

/-- Decimal expansion of the fractional part of a rational, one digit per
step, stopping at zero (fuel-bounded). -/
def fracDigitsAux : ℕ → ℚ → List Char
  | 0, _ => []
  | fuel + 1, q =>
    if q = 0 then []
    else
      let q10 := q * 10
      digitChar (Int.toNat ⌊q10⌋) :: fracDigitsAux fuel (q10 - (⌊q10⌋ : ℚ))

/-- JavaScript conversion of a number to a string, as used by the template
literals of the source formatter.  Exact for integers and for terminating
decimal fractions of at most 64 digits, which covers every value this
program constructs. -/
def jsNumToString (q : ℚ) : String :=
  let sign : List Char := if q < 0 then ['-'] else []
  let a := |q|
  let intChars := natToChars (Int.toNat ⌊a⌋)
  let fracChars := fracDigitsAux 64 (a - (⌊a⌋ : ℚ))
  String.mk (sign ++ intChars ++ (if fracChars = [] then [] else '.' :: fracChars))

/-- Source `formatCyberDate`: an if-chain over which fields are non-null,
each branch a fixed template, falling through to the sentinel
string when no branch applies. -/
def formatCyberDate (date : CyberDate) : String :=
  if date.solarCycle ≠ none ∧ date.cycle ≠ none ∧ date.chord ≠ none ∧ date.klik ≠ none then
    jsNumToString (date.klik.getD 0) ++ " arc " ++ jsNumToString (date.chord.getD 0) ++ " " ++
      jsNumToString (date.cycle.getD 0) ++ " arc " ++ jsNumToString (date.solarCycle.getD 0)
  else if date.solarCycle ≠ none ∧ date.cycle ≠ none ∧ date.chord ≠ none ∧ date.klik = none then
    jsNumToString (date.chord.getD 0) ++ " " ++ jsNumToString (date.cycle.getD 0) ++ " arc " ++
      jsNumToString (date.solarCycle.getD 0)
  else if date.klik ≠ none ∧ date.chord ≠ none then
    jsNumToString (date.klik.getD 0) ++ " arc " ++ jsNumToString (date.chord.getD 0)
  else if date.cycle ≠ none then
    jsNumToString (date.cycle.getD 0)
  else
    "Invalid date"

/-- Result record of `differenceBetweenDates`. -/
structure DateDifference where
  diffSeconds : ℚ
  diffCyber : CyberDate
deriving DecidableEq

/-- Source `differenceBetweenDates`: absolute difference of the two dates in
seconds, also re-expressed through `earthSecondsToCyberDate`. -/
def differenceBetweenDates (date1 date2 : CyberDate) : DateDifference :=
  let seconds1 := cyberDateToEarthSeconds date1
  let seconds2 := cyberDateToEarthSeconds date2
  let diffSeconds := |seconds2 - seconds1|
  { diffSeconds := diffSeconds, diffCyber := earthSecondsToCyberDate diffSeconds }

/-- Whitespace characters of the JavaScript regex escape used by the source. -/
def jsIsWs (c : Char) : Bool :=
  c == ' ' || c == '\t' || c == '\n' || c == '\r' || c == Char.ofNat 11 || c == Char.ofNat 12

/-- Drop the leading whitespace run. -/
def dropWs : List Char → List Char
  | [] => []
  | c :: rest => if jsIsWs c then dropWs rest else c :: rest

/-- JavaScript String.trim on a character list. -/
def trimChars (l : List Char) : List Char :=
  (dropWs (dropWs l).reverse).reverse

/-- JavaScript toLowerCase restricted to ASCII, which is all the parser
exercises. -/
def lowerChars (l : List Char) : List Char := l.map Char.toLower

/-- Remainder after a literal arc word at the head of the input. -/
def afterArc : List Char → Option (List Char)
  | 'a' :: 'r' :: 'c' :: rest => some rest
  | _ => none

/-- Splitting on the arc separator regex of the source: a match at a position
is a whitespace run, the literal word, and a trailing whitespace run;
scanning is leftmost and resumes after each match.  Fuel-driven recursion;
the fuel chosen below always suffices. -/
def splitArcGo : ℕ → List Char → List Char → List (List Char)
  | 0, l, acc => [acc.reverse ++ l]
  | _ + 1, [], acc => [acc.reverse]
  | fuel + 1, c :: rest, acc =>
    match afterArc (dropWs (c :: rest)) with
    | some tail => acc.reverse :: splitArcGo fuel (dropWs tail) []
    | none => splitArcGo fuel rest (c :: acc)

/-- Split of a character list on the arc separator regex. -/
def splitArc (l : List Char) : List (List Char) := splitArcGo (l.length + 1) l []

/-- Splitting on whitespace runs, with the JavaScript conventions for empty
leading, trailing and whole-string parts. -/
def splitWsGo : ℕ → List Char → List Char → List (List Char)
  | 0, l, acc => [acc.reverse ++ l]
  | _ + 1, [], acc => [acc.reverse]
  | fuel + 1, c :: rest, acc =>
    if jsIsWs c then acc.reverse :: splitWsGo fuel (dropWs rest) []
    else splitWsGo fuel rest (c :: acc)

/-- Split of a character list on whitespace runs. -/
def splitWs (l : List Char) : List (List Char) := splitWsGo (l.length + 1) l []

/-- Longest digit run at the head of the list, with the remainder. -/
def takeDigits : List Char → List Char × List Char
  | [] => ([], [])
  | c :: rest =>
    if c.isDigit then
      let p := takeDigits rest
      (c :: p.1, p.2)
    else ([], c :: rest)

/-- Value of a decimal digit run. -/
def digitsToNat (l : List Char) : ℕ :=
  l.foldl (fun n c => 10 * n + (c.toNat - 48)) 0

/-- Value of one digit in radix up to sixteen, lowercase or uppercase. -/
def hexDigitVal (c : Char) : Option ℕ :=
  if c.isDigit then some (c.toNat - 48)
  else if 97 ≤ c.toNat ∧ c.toNat ≤ 102 then some (c.toNat - 87)
  else if 65 ≤ c.toNat ∧ c.toNat ≤ 70 then some (c.toNat - 55)
  else none

/-- Value of a nonempty digit run in the given radix. -/
def radixValAux (radix : ℕ) : List Char → ℕ → Option ℕ
  | [], acc => some acc
  | c :: rest, acc =>
    match hexDigitVal c with
    | some v => if v < radix then radixValAux radix rest (radix * acc + v) else none
    | none => none

/-- Radix literal digits as a value, requiring at least one digit. -/
def radixVal (radix : ℕ) : List Char → Option ℕ
  | [] => none
  | l => radixValAux radix l 0

/-- Ten to an integer power, on rationals. -/
def applyTenPow (q : ℚ) (e : ℤ) : ℚ :=
  if 0 ≤ e then q * 10 ^ e.toNat else q / 10 ^ (-e).toNat

/-- JavaScript unsigned decimal number literal as accepted by Number():
digits, an optional point with further digits, an optional exponent; the
whole list must be consumed and the mantissa must hold at least one digit. -/
def jsDecimal (l : List Char) : Option ℚ :=
  let ip := takeDigits l
  let fp : List Char × List Char :=
    match ip.2 with
    | '.' :: r => takeDigits r
    | _ => ([], ip.2)
  let mant : ℚ := (digitsToNat (ip.1 ++ fp.1) : ℚ)
  let mantOk := ip.1 ≠ [] ∨ fp.1 ≠ []
  match fp.2 with
  | [] => if mantOk then some (applyTenPow mant (0 - (fp.1.length : ℤ))) else none
  | e :: r3 =>
    if (e = 'e' ∨ e = 'E') ∧ mantOk then
      let sr : ℤ × List Char :=
        match r3 with
        | '+' :: r => (1, r)
        | '-' :: r => (-1, r)
        | r => (1, r)
      let ed := takeDigits sr.2
      if ed.1 ≠ [] ∧ ed.2 = [] then
        some (applyTenPow mant (sr.1 * (digitsToNat ed.1 : ℤ) - (fp.1.length : ℤ)))
      else none
    else none

/-- JavaScript Number() conversion of a whitespace-free token, none meaning
NaN.  The empty token gives zero; radix literals carry no sign; otherwise a
signed decimal literal.  The Infinity spelling is case-sensitive in
JavaScript while the parser lowercases its input first, so it converts to
NaN here and carries no value. -/
def jsNumber : List Char → Option ℚ
  | [] => some 0
  | '0' :: 'x' :: rest => (radixVal 16 rest).map (fun n => (n : ℚ))
  | '0' :: 'X' :: rest => (radixVal 16 rest).map (fun n => (n : ℚ))
  | '0' :: 'o' :: rest => (radixVal 8 rest).map (fun n => (n : ℚ))
  | '0' :: 'O' :: rest => (radixVal 8 rest).map (fun n => (n : ℚ))
  | '0' :: 'b' :: rest => (radixVal 2 rest).map (fun n => (n : ℚ))
  | '0' :: 'B' :: rest => (radixVal 2 rest).map (fun n => (n : ℚ))
  | '+' :: rest => jsDecimal rest
  | '-' :: rest => (jsDecimal rest).map (fun q => -q)
  | l => jsDecimal l

/-- Tokens of one arc-part: the source trims it and splits it on
whitespace runs. -/
def partTokens (part : List Char) : List (List Char) := splitWs (trimChars part)

/-- All tokens of an input in left-to-right order: trim and lowercase, split
on the arc separator, tokenize each part and flatten, as the source does
when building its numbers array. -/
def tokensOf (input : String) : List (List Char) :=
  (splitArc (lowerChars (trimChars input.toList))).flatMap partTokens

/-- Number conversion of the token list, failing at the first NaN token just
as the source flattening loop throws there. -/
def numbersOfTokens : List (List Char) → Except String (List ℚ)
  | [] => .ok []
  | t :: ts =>
    match jsNumber t with
    | none => .error "Invalid number in date"
    | some q => (numbersOfTokens ts).map (fun ns => q :: ns)

/-- The flattened number sequence of an input. -/
def numbersOf (input : String) : Except String (List ℚ) :=
  numbersOfTokens (tokensOf input)

/-- The arity table of the source: lengths four, three, two and one get the
listed fields, anything else the null return that callers surface as a
format error. -/
def assignByArity : List ℚ → Except String CyberDate
  | [k, ch, cy, sc] =>
    .ok { klik := some k, chord := some ch, cycle := some cy, solarCycle := some sc }
  | [ch, cy, sc] =>
    .ok { klik := none, chord := some ch, cycle := some cy, solarCycle := some sc }
  | [k, ch] =>
    .ok { klik := some k, chord := some ch, cycle := none, solarCycle := none }
  | [cy] =>
    .ok { klik := none, chord := none, cycle := some cy, solarCycle := none }
  | _ => .error "Invalid cybertronian date format."

/-- Source `parseCybertronianDate`: trim and lowercase, split on the arc
separator (the guard on an empty split result mirrors the corresponding
null return of the source, which never fires), tokenize and convert, then
assign fields by arity. -/
def parseCybertronianDate (input : String) : Except String CyberDate :=
  let arcParts := splitArc (lowerChars (trimChars input.toList))
  if arcParts = [] then .error "Invalid cybertronian date format."
  else
    match numbersOfTokens (arcParts.flatMap partTokens) with
    | .error e => .error e
    | .ok ns => assignByArity ns

/-- Case-insensitive match of a lowercase pattern word at the head of the
input, returning the remainder. -/
def matchWordCI : List Char → List Char → Option (List Char)
  | [], l => some l
  | _ :: _, [] => none
  | p :: ps, c :: l => if c.toLower = p then matchWordCI ps l else none

/-- One alternative of the unit regex of the source: the unit word with a
greedy optional plural letter. -/
def matchUnitWord (w : List Char) (secs : ℚ) (l : List Char) : Option (ℚ × List Char) :=
  match matchWordCI w l with
  | none => none
  | some r =>
    match r with
    | c :: r2 => if c.toLower = 's' then some (secs, r2) else some (secs, r)
    | [] => some (secs, [])

/-- The unit alternation of the source regex paired with the unit table of
seconds values. -/
def matchUnit (l : List Char) : Option (ℚ × List Char) :=
  matchUnitWord ['y', 'e', 'a', 'r'] (365.25 * 86400) l <|>
  matchUnitWord ['w', 'e', 'e', 'k'] (7 * 86400) l <|>
  matchUnitWord ['d', 'a', 'y'] 86400 l <|>
  matchUnitWord ['h', 'o', 'u', 'r'] 3600 l <|>
  matchUnitWord ['m', 'i', 'n', 'u', 't', 'e'] 60 l <|>
  matchUnitWord ['s', 'e', 'c', 'o', 'n', 'd'] 1 l

/-- Scan of the duration regex over the input: a match at a position is a
digit run, a whitespace run and a unit word; on success scanning resumes
after the match, on failure at the next character, accumulating the total.
Fuel-driven recursion; the fuel chosen below always suffices. -/
def phtGo : ℕ → List Char → ℚ → ℚ
  | 0, _, total => total
  | _ + 1, [], total => total
  | fuel + 1, c :: rest, total =>
    if c.isDigit then
      let p := takeDigits (c :: rest)
      match matchUnit (dropWs p.2) with
      | some ur => phtGo fuel ur.2 (total + (digitsToNat p.1 : ℚ) * ur.1)
      | none => phtGo fuel rest total
    else phtGo fuel rest total

/-- Source `parseHumanTime`: total seconds over all matches of the duration
regex. -/
def parseHumanTime (text : String) : ℚ :=
  phtGo (text.toList.length + 1) text.toList 0

/-- The match list of the duration regex scan, each entry the integer value
and the unit seconds it contributes. -/
def phtMatchesGo : ℕ → List Char → List (ℕ × ℚ)
  | 0, _ => []
  | _ + 1, [] => []
  | fuel + 1, c :: rest =>
    if c.isDigit then
      let p := takeDigits (c :: rest)
      match matchUnit (dropWs p.2) with
      | some ur => (digitsToNat p.1, ur.1) :: phtMatchesGo fuel ur.2
      | none => phtMatchesGo fuel rest
    else phtMatchesGo fuel rest

/-- Match list of the duration regex over a whole input. -/
def phtMatches (text : String) : List (ℕ × ℚ) :=
  phtMatchesGo (text.toList.length + 1) text.toList

/-- Core of the add form handler of the source: reject a non-positive
duration, otherwise add the duration seconds and reconvert. -/
def addEarthTime (date : CyberDate) (earthInput : String) : Except String CyberDate :=
  let earthSecondsToAdd := parseHumanTime earthInput
  if earthSecondsToAdd ≤ 0 then .error "Invalid or zero Earth time to add."
  else .ok (earthSecondsToCyberDate (cyberDateToEarthSeconds date + earthSecondsToAdd))

/-- Core of the subtract form handler of the source: reject a non-positive
duration and a result below the origin, otherwise subtract and reconvert. -/
def subtractEarthTime (date : CyberDate) (earthInput : String) : Except String CyberDate :=
  let earthSecondsToSubtract := parseHumanTime earthInput
  if earthSecondsToSubtract ≤ 0 then .error "Invalid or zero Earth time to subtract."
  else
    let newSeconds := cyberDateToEarthSeconds date - earthSecondsToSubtract
    if newSeconds < 0 then .error "Resulting date is before the start of Cybertronian time."
    else .ok (earthSecondsToCyberDate newSeconds)

/-! Ground evaluation lemmas for digit characters, used by the concrete
evaluation proofs below. -/

@[simp] theorem toNat_d0 : '0'.toNat = 48 := by decide
@[simp] theorem toNat_d1 : '1'.toNat = 49 := by decide
@[simp] theorem toNat_d2 : '2'.toNat = 50 := by decide
@[simp] theorem toNat_d3 : '3'.toNat = 51 := by decide
@[simp] theorem toNat_d4 : '4'.toNat = 52 := by decide
@[simp] theorem toNat_d5 : '5'.toNat = 53 := by decide
@[simp] theorem toNat_d6 : '6'.toNat = 54 := by decide
@[simp] theorem toNat_d7 : '7'.toNat = 55 := by decide
@[simp] theorem toNat_d8 : '8'.toNat = 56 := by decide
@[simp] theorem toNat_d9 : '9'.toNat = 57 := by decide

@[simp] theorem toLower_d0 : '0'.toLower = '0' := by decide
@[simp] theorem toLower_d1 : '1'.toLower = '1' := by decide
@[simp] theorem toLower_d2 : '2'.toLower = '2' := by decide
@[simp] theorem toLower_d3 : '3'.toLower = '3' := by decide
@[simp] theorem toLower_d4 : '4'.toLower = '4' := by decide
@[simp] theorem toLower_d5 : '5'.toLower = '5' := by decide
@[simp] theorem toLower_d6 : '6'.toLower = '6' := by decide
@[simp] theorem toLower_d7 : '7'.toLower = '7' := by decide
@[simp] theorem toLower_d8 : '8'.toLower = '8' := by decide
@[simp] theorem toLower_d9 : '9'.toLower = '9' := by decide

@[simp] theorem digitChar_e0 : digitChar 0 = '0' := by decide
@[simp] theorem digitChar_e1 : digitChar 1 = '1' := by decide
@[simp] theorem digitChar_e2 : digitChar 2 = '2' := by decide
@[simp] theorem digitChar_e3 : digitChar 3 = '3' := by decide
@[simp] theorem digitChar_e4 : digitChar 4 = '4' := by decide
@[simp] theorem digitChar_e5 : digitChar 5 = '5' := by decide
@[simp] theorem digitChar_e6 : digitChar 6 = '6' := by decide
@[simp] theorem digitChar_e7 : digitChar 7 = '7' := by decide
@[simp] theorem digitChar_e8 : digitChar 8 = '8' := by decide
@[simp] theorem digitChar_e9 : digitChar 9 = '9' := by decide

/-! Positivity facts about the unit constants. -/

theorem SOLAR_CYCLE_DAYS_pos : (0 : ℚ) < SOLAR_CYCLE_DAYS := by
  norm_num [SOLAR_CYCLE_DAYS, SOLAR_CYCLE_YEARS, EARTH_YEAR_IN_DAYS]

theorem CYCLE_pos : (0 : ℚ) < CYCLE := by
  norm_num [CYCLE, SOLAR_CYCLE_DAYS, SOLAR_CYCLE_YEARS, EARTH_YEAR_IN_DAYS]

theorem CYCLE_div10_pos : (0 : ℚ) < CYCLE / 10 := div_pos CYCLE_pos (by norm_num)

theorem CYCLE_div1000_pos : (0 : ℚ) < CYCLE / 1000 := div_pos CYCLE_pos (by norm_num)

/-- C3: cyberDateToEarthSeconds is total and equals 86400 times the weighted
sum of the non-null fields with weights 3652.5, 3.6525, 0.36525 and
0.0036525 days, a null field contributing zero. -/
theorem cyberDateToEarthSeconds_formula (d : CyberDate) :
    cyberDateToEarthSeconds d =
      86400 * (d.solarCycle.getD 0 * 3652.5 + d.cycle.getD 0 * 3.6525 +
        d.chord.getD 0 * 0.36525 + d.klik.getD 0 * 0.0036525) := by
  rcases d with ⟨k, ch, cy, sc⟩
  rcases k with _ | k <;> rcases ch with _ | ch <;> rcases cy with _ | cy <;>
    rcases sc with _ | sc <;>
    · simp only [cyberDateToEarthSeconds, Option.getD]
      norm_num [SOLAR_CYCLE_DAYS, SOLAR_CYCLE_YEARS, EARTH_YEAR_IN_DAYS, CYCLE]
      try ring

/-- C8: differenceBetweenDates returns the absolute seconds difference, its
cyberDate component is that difference reconverted, the operation is
symmetric, and on equal arguments it gives zero and the origin date. -/
theorem differenceBetweenDates_spec (d1 d2 : CyberDate) :
    (differenceBetweenDates d1 d2).diffSeconds =
        |cyberDateToEarthSeconds d1 - cyberDateToEarthSeconds d2| ∧
      (differenceBetweenDates d1 d2).diffCyber =
        earthSecondsToCyberDate (differenceBetweenDates d1 d2).diffSeconds ∧
      differenceBetweenDates d1 d2 = differenceBetweenDates d2 d1 ∧
      (differenceBetweenDates d1 d1).diffSeconds = 0 ∧
      (differenceBetweenDates d1 d1).diffCyber = earthSecondsToCyberDate 0 := by
  refine ⟨?_, rfl, ?_, ?_, ?_⟩
  · simp only [differenceBetweenDates]
    exact abs_sub_comm _ _
  · simp only [differenceBetweenDates, abs_sub_comm]
  · simp [differenceBetweenDates]
  · simp [differenceBetweenDates]

/-! Named stages of earthSecondsToCyberDate, equal by definition to the let
bindings of its body, for reasoning about the successive floored divisions. -/

/-- Day count of the seconds input. -/
def totalDays0 (s : ℚ) : ℚ := s / 86400

/-- The solarCycle field computed by earthSecondsToCyberDate. -/
def scF (s : ℚ) : ℤ := ⌊totalDays0 s / SOLAR_CYCLE_DAYS⌋

/-- Days remaining after removing the solar cycles. -/
def totalDays1 (s : ℚ) : ℚ := totalDays0 s - scF s * SOLAR_CYCLE_DAYS

/-- The cycle field computed by earthSecondsToCyberDate. -/
def cyF (s : ℚ) : ℤ := ⌊totalDays1 s / CYCLE⌋

/-- Days remaining after removing the cycles. -/
def totalDays2 (s : ℚ) : ℚ := totalDays1 s - cyF s * CYCLE

/-- The chord field computed by earthSecondsToCyberDate. -/
def chF (s : ℚ) : ℤ := ⌊totalDays2 s / (CYCLE / 10)⌋

/-- Days remaining after removing the chords. -/
def totalDays3 (s : ℚ) : ℚ := totalDays2 s - chF s * (CYCLE / 10)

/-- The klik field computed by earthSecondsToCyberDate. -/
def kF (s : ℚ) : ℤ := ⌊totalDays3 s / (CYCLE / 1000)⌋

/-- The stages assemble to exactly the record earthSecondsToCyberDate builds. -/
theorem earthSecondsToCyberDate_stages (s : ℚ) :
    earthSecondsToCyberDate s =
      { klik := some ((kF s : ℤ) : ℚ), chord := some ((chF s : ℤ) : ℚ),
        cycle := some ((cyF s : ℤ) : ℚ), solarCycle := some ((scF s : ℤ) : ℚ) } := rfl

theorem totalDays1_nonneg (s : ℚ) : 0 ≤ totalDays1 s := by
  simp only [totalDays1, scF]
  exact Int.sub_floor_div_mul_nonneg _ SOLAR_CYCLE_DAYS_pos

theorem totalDays1_lt (s : ℚ) : totalDays1 s < SOLAR_CYCLE_DAYS := by
  simp only [totalDays1, scF]
  exact Int.sub_floor_div_mul_lt _ SOLAR_CYCLE_DAYS_pos

theorem totalDays2_nonneg (s : ℚ) : 0 ≤ totalDays2 s := by
  simp only [totalDays2, cyF]
  exact Int.sub_floor_div_mul_nonneg _ CYCLE_pos

theorem totalDays2_lt (s : ℚ) : totalDays2 s < CYCLE := by
  simp only [totalDays2, cyF]
  exact Int.sub_floor_div_mul_lt _ CYCLE_pos

theorem totalDays3_nonneg (s : ℚ) : 0 ≤ totalDays3 s := by
  simp only [totalDays3, chF]
  exact Int.sub_floor_div_mul_nonneg _ CYCLE_div10_pos

theorem totalDays3_lt (s : ℚ) : totalDays3 s < CYCLE / 10 := by
  simp only [totalDays3, chF]
  exact Int.sub_floor_div_mul_lt _ CYCLE_div10_pos

theorem residual_nonneg (s : ℚ) : 0 ≤ totalDays3 s - kF s * (CYCLE / 1000) := by
  simp only [kF]
  exact Int.sub_floor_div_mul_nonneg _ CYCLE_div1000_pos

theorem residual_lt (s : ℚ) : totalDays3 s - kF s * (CYCLE / 1000) < CYCLE / 1000 := by
  simp only [kF]
  exact Int.sub_floor_div_mul_lt _ CYCLE_div1000_pos

/-- General upper bound for a floored division against a multiple of the
divisor. -/
theorem floor_div_le_of_lt_mul {x c : ℚ} {m : ℕ} (hc : 0 < c) (hx : x < m * c) :
    ⌊x / c⌋ ≤ (m : ℤ) - 1 := by
  have h : ⌊x / c⌋ < (m : ℤ) := Int.floor_lt.2 (by rw [div_lt_iff₀ hc]; exact_mod_cast hx)
  omega

/-- C4: for non-negative seconds, earthSecondsToCyberDate populates all four
fields (never null) with non-negative integer values, the fields being the
successive floored divisions of the day count. -/
theorem earthSecondsToCyberDate_populated (s : ℚ) (hs : 0 ≤ s) :
    ∃ k ch cy sc : ℤ,
      earthSecondsToCyberDate s =
        { klik := some (k : ℚ), chord := some (ch : ℚ),
          cycle := some (cy : ℚ), solarCycle := some (sc : ℚ) } ∧
      0 ≤ k ∧ 0 ≤ ch ∧ 0 ≤ cy ∧ 0 ≤ sc := by
  refine ⟨kF s, chF s, cyF s, scF s, earthSecondsToCyberDate_stages s, ?_, ?_, ?_, ?_⟩
  · exact Int.floor_nonneg.2 (div_nonneg (totalDays3_nonneg s) CYCLE_div1000_pos.le)
  · exact Int.floor_nonneg.2 (div_nonneg (totalDays2_nonneg s) CYCLE_div10_pos.le)
  · exact Int.floor_nonneg.2 (div_nonneg (totalDays1_nonneg s) CYCLE_pos.le)
  · exact Int.floor_nonneg.2
      (div_nonneg (div_nonneg hs (by norm_num)) SOLAR_CYCLE_DAYS_pos.le)

/-- Witness for C4 at one hundred seconds. -/
theorem earthSecondsToCyberDate_populated_witness :
    (0 : ℚ) ≤ 100 ∧
      ∃ k ch cy sc : ℤ,
        earthSecondsToCyberDate 100 =
          { klik := some (k : ℚ), chord := some (ch : ℚ),
            cycle := some (cy : ℚ), solarCycle := some (sc : ℚ) } ∧
        0 ≤ k ∧ 0 ≤ ch ∧ 0 ≤ cy ∧ 0 ≤ sc :=
  ⟨by norm_num, earthSecondsToCyberDate_populated 100 (by norm_num)⟩

/-- C10: for non-negative seconds the result of earthSecondsToCyberDate is in
canonical form: cycle in zero to 999, chord in zero to nine, klik in zero to
99, only solarCycle unbounded. -/
theorem earthSecondsToCyberDate_canonical (s : ℚ) (_hs : 0 ≤ s) :
    ∃ k ch cy sc : ℤ,
      earthSecondsToCyberDate s =
        { klik := some (k : ℚ), chord := some (ch : ℚ),
          cycle := some (cy : ℚ), solarCycle := some (sc : ℚ) } ∧
      0 ≤ cy ∧ cy ≤ 999 ∧ 0 ≤ ch ∧ ch ≤ 9 ∧ 0 ≤ k ∧ k ≤ 99 := by
  have e1 : ((1000 : ℕ) : ℚ) * CYCLE = SOLAR_CYCLE_DAYS := by
    simp only [CYCLE]; push_cast; ring
  have e2 : ((10 : ℕ) : ℚ) * (CYCLE / 10) = CYCLE := by push_cast; ring
  have e3 : ((100 : ℕ) : ℚ) * (CYCLE / 1000) = CYCLE / 10 := by push_cast; ring
  refine ⟨kF s, chF s, cyF s, scF s, earthSecondsToCyberDate_stages s, ?_, ?_, ?_, ?_, ?_, ?_⟩
  · exact Int.floor_nonneg.2 (div_nonneg (totalDays1_nonneg s) CYCLE_pos.le)
  · have h := floor_div_le_of_lt_mul CYCLE_pos (by rw [e1]; exact totalDays1_lt s)
    simp only [cyF]
    exact le_trans h (by norm_num)
  · exact Int.floor_nonneg.2 (div_nonneg (totalDays2_nonneg s) CYCLE_div10_pos.le)
  · have h := floor_div_le_of_lt_mul CYCLE_div10_pos (by rw [e2]; exact totalDays2_lt s)
    simp only [chF]
    exact le_trans h (by norm_num)
  · exact Int.floor_nonneg.2 (div_nonneg (totalDays3_nonneg s) CYCLE_div1000_pos.le)
  · have h := floor_div_le_of_lt_mul CYCLE_div1000_pos (by rw [e3]; exact totalDays3_lt s)
    simp only [kF]
    exact le_trans h (by norm_num)

/-- Witness for C10 at one million seconds. -/
theorem earthSecondsToCyberDate_canonical_witness :
    (0 : ℚ) ≤ 1000000 ∧
      ∃ k ch cy sc : ℤ,
        earthSecondsToCyberDate 1000000 =
          { klik := some (k : ℚ), chord := some (ch : ℚ),
            cycle := some (cy : ℚ), solarCycle := some (sc : ℚ) } ∧
        0 ≤ cy ∧ cy ≤ 999 ∧ 0 ≤ ch ∧ ch ≤ 9 ∧ 0 ≤ k ∧ k ≤ 99 :=
  ⟨by norm_num, earthSecondsToCyberDate_canonical 1000000 (by norm_num)⟩

/-- Reconversion of the record produced by earthSecondsToCyberDate, written
through the residual of the last floored division. -/
theorem cyberDateToEarthSeconds_of_stages (s : ℚ) :
    cyberDateToEarthSeconds (earthSecondsToCyberDate s) =
      s - (totalDays3 s - kF s * (CYCLE / 1000)) * 86400 := by
  rw [earthSecondsToCyberDate_stages]
  simp only [cyberDateToEarthSeconds, totalDays3, totalDays2, totalDays1, totalDays0]
  ring

/-- C5: for every non-negative integer seconds value, converting to a
CyberDate and back lies within one klik-duration of the input. -/
theorem roundtrip_within_klik (n : ℕ) :
    |cyberDateToEarthSeconds (earthSecondsToCyberDate (n : ℚ)) - (n : ℚ)| ≤
      0.0036525 * 86400 := by
  have hkey := cyberDateToEarthSeconds_of_stages (n : ℚ)
  have h0 := residual_nonneg (n : ℚ)
  have h1 := residual_lt (n : ℚ)
  have hb : CYCLE / 1000 = (0.0036525 : ℚ) := by
    norm_num [CYCLE, SOLAR_CYCLE_DAYS, SOLAR_CYCLE_YEARS, EARTH_YEAR_IN_DAYS]
  rw [hkey]
  have hrw : (n : ℚ) - (totalDays3 (n : ℚ) - kF (n : ℚ) * (CYCLE / 1000)) * 86400 - (n : ℚ) =
      -((totalDays3 (n : ℚ) - kF (n : ℚ) * (CYCLE / 1000)) * 86400) := by ring
  rw [hrw, abs_neg, abs_of_nonneg (mul_nonneg h0 (by norm_num)), hb]
  rw [hb] at h1
  linarith [h1]

/-! Structural lemmas about the parsing pipeline. -/

theorem splitArcGo_ne_nil (fuel : ℕ) : ∀ (l acc : List Char), splitArcGo fuel l acc ≠ [] := by
  induction fuel with
  | zero => intro l acc; simp [splitArcGo]
  | succ fuel ih =>
    intro l acc
    cases l with
    | nil => simp [splitArcGo]
    | cons c rest =>
      cases h : afterArc (dropWs (c :: rest)) with
      | none => simp only [splitArcGo, h]; exact ih rest (c :: acc)
      | some tail => simp [splitArcGo, h]

theorem splitArc_ne_nil (l : List Char) : splitArc l ≠ [] :=
  splitArcGo_ne_nil _ l []

theorem except_map_error_iff {α β γ : Type} (f : α → β) (x : Except γ α) (e : γ) :
    Except.map f x = .error e ↔ x = .error e := by
  cases x <;> simp [Except.map]

theorem numbersOfTokens_error_iff (ts : List (List Char)) :
    (∃ e, numbersOfTokens ts = .error e) ↔ ∃ t ∈ ts, jsNumber t = none := by
  induction ts with
  | nil => simp [numbersOfTokens]
  | cons t ts ih =>
    simp only [numbersOfTokens]
    cases h : jsNumber t with
    | none => simp [h]
    | some q => simp [h, except_map_error_iff, ih, List.mem_cons]

theorem numbersOfTokens_ok_length (ts : List (List Char)) :
    ∀ ns, numbersOfTokens ts = .ok ns → ns.length = ts.length := by
  induction ts with
  | nil =>
    intro ns h
    simp only [numbersOfTokens] at h
    cases h
    rfl
  | cons t ts ih =>
    intro ns h
    simp only [numbersOfTokens] at h
    cases hj : jsNumber t with
    | none => rw [hj] at h; cases h
    | some q =>
      rw [hj] at h
      cases hr : numbersOfTokens ts with
      | error e => rw [hr] at h; simp [Except.map] at h
      | ok ms =>
        rw [hr] at h
        simp only [Except.map, Except.ok.injEq] at h
        subst h
        simp [ih ms hr]

theorem assignByArity_error_iff (ns : List ℚ) :
    (∃ e, assignByArity ns = .error e) ↔
      ¬(ns.length = 1 ∨ ns.length = 2 ∨ ns.length = 3 ∨ ns.length = 4) := by
  match ns with
  | [] => simp [assignByArity]
  | [a] => simp [assignByArity]
  | [a, b] => simp [assignByArity]
  | [a, b, c] => simp [assignByArity]
  | [a, b, c, d] => simp [assignByArity]
  | a :: b :: c :: d :: e :: tl => simp [assignByArity]

/-- parseCybertronianDate factors through the flattened number sequence. -/
theorem parse_eq_assign (input : String) :
    parseCybertronianDate input =
      match numbersOf input with
      | .error e => .error e
      | .ok ns => assignByArity ns := by
  simp only [parseCybertronianDate, numbersOf, tokensOf]
  rw [if_neg (splitArc_ne_nil _)]

/-- C1: the parser assigns the flattened numbers left to right by arity —
four numbers give klik, chord, cycle, solarCycle; three give chord, cycle,
solarCycle with klik null; two give klik, chord with cycle and solarCycle
null; one gives cycle with the rest null — and the three spec examples
evaluate accordingly. -/
theorem parse_arity :
    (∀ (input : String) (a b c d : ℚ), numbersOf input = .ok [a, b, c, d] →
      parseCybertronianDate input =
        .ok { klik := some a, chord := some b, cycle := some c, solarCycle := some d }) ∧
    (∀ (input : String) (a b c : ℚ), numbersOf input = .ok [a, b, c] →
      parseCybertronianDate input =
        .ok { klik := none, chord := some a, cycle := some b, solarCycle := some c }) ∧
    (∀ (input : String) (a b : ℚ), numbersOf input = .ok [a, b] →
      parseCybertronianDate input =
        .ok { klik := some a, chord := some b, cycle := none, solarCycle := none }) ∧
    (∀ (input : String) (a : ℚ), numbersOf input = .ok [a] →
      parseCybertronianDate input =
        .ok { klik := none, chord := none, cycle := some a, solarCycle := none }) ∧
    parseCybertronianDate "5 arc 3" =
      .ok { klik := some 5, chord := some 3, cycle := none, solarCycle := none } ∧
    parseCybertronianDate "7" =
      .ok { klik := none, chord := none, cycle := some 7, solarCycle := none } ∧
    parseCybertronianDate "1 2 arc 3" =
      .ok { klik := none, chord := some 1, cycle := some 2, solarCycle := some 3 } := by
  refine ⟨?_, ?_, ?_, ?_, ?_, ?_, ?_⟩
  · intro input a b c d h; rw [parse_eq_assign, h]; rfl
  · intro input a b c h; rw [parse_eq_assign, h]; rfl
  · intro input a b h; rw [parse_eq_assign, h]; rfl
  · intro input a h; rw [parse_eq_assign, h]; rfl
  · norm_num +decide [parseCybertronianDate, splitArc, splitArcGo, afterArc, dropWs, jsIsWs,
      trimChars, lowerChars, partTokens, splitWs, splitWsGo, numbersOfTokens, jsNumber,
      jsDecimal, takeDigits, digitsToNat, applyTenPow, assignByArity, Except.map]
  · norm_num +decide [parseCybertronianDate, splitArc, splitArcGo, afterArc, dropWs, jsIsWs,
      trimChars, lowerChars, partTokens, splitWs, splitWsGo, numbersOfTokens, jsNumber,
      jsDecimal, takeDigits, digitsToNat, applyTenPow, assignByArity, Except.map]
  · norm_num +decide [parseCybertronianDate, splitArc, splitArcGo, afterArc, dropWs, jsIsWs,
      trimChars, lowerChars, partTokens, splitWs, splitWsGo, numbersOfTokens, jsNumber,
      jsDecimal, takeDigits, digitsToNat, applyTenPow, assignByArity, Except.map]

/-- Witness for C1: a concrete three-number input discharging the arity
hypothesis. -/
theorem parse_arity_witness :
    numbersOf "1 2 arc 3" = .ok [1, 2, 3] ∧
      parseCybertronianDate "1 2 arc 3" =
        .ok { klik := none, chord := some 1, cycle := some 2, solarCycle := some 3 } := by
  have h : numbersOf "1 2 arc 3" = .ok [1, 2, 3] := by
    norm_num +decide [numbersOf, tokensOf, splitArc, splitArcGo, afterArc, dropWs, jsIsWs,
      trimChars, lowerChars, partTokens, splitWs, splitWsGo, numbersOfTokens, jsNumber,
      jsDecimal, takeDigits, digitsToNat, applyTenPow, Except.map]
  exact ⟨h, parse_arity.2.1 "1 2 arc 3" 1 2 3 h⟩

/-- C2 as amended: the parser fails exactly when some token is not a valid
number or the flattened token sequence has length outside one to four; the
token sequence is never empty — the empty or whitespace-only input yields
the single empty token, which converts to zero, so the empty string parses
as cycle zero rather than failing — and a non-numeric input fails. -/
theorem parse_error_characterization :
    (∀ input : String,
      (∃ e, parseCybertronianDate input = .error e) ↔
        ((∃ t ∈ tokensOf input, jsNumber t = none) ∨
          ¬((tokensOf input).length = 1 ∨ (tokensOf input).length = 2 ∨
            (tokensOf input).length = 3 ∨ (tokensOf input).length = 4))) ∧
    parseCybertronianDate "abc" = .error "Invalid number in date" ∧
    parseCybertronianDate "" =
      .ok { klik := none, chord := none, cycle := some 0, solarCycle := none } ∧
    tokensOf "" = [[]] := by
  refine ⟨?_, ?_, ?_, ?_⟩
  · intro input
    rw [parse_eq_assign]
    simp only [numbersOf]
    cases h : numbersOfTokens (tokensOf input) with
    | error e =>
      have hbt : ∃ t ∈ tokensOf input, jsNumber t = none :=
        (numbersOfTokens_error_iff (tokensOf input)).1 ⟨e, h⟩
      simp [hbt]
    | ok ns =>
      have hlen := numbersOfTokens_ok_length _ ns h
      have hbt : ¬∃ t ∈ tokensOf input, jsNumber t = none := by
        rw [← numbersOfTokens_error_iff]
        rintro ⟨e, he⟩
        rw [h] at he
        cases he
      rw [← hlen]
      simp only [hbt, false_or]
      exact assignByArity_error_iff ns
  · norm_num +decide [parseCybertronianDate, splitArc, splitArcGo, afterArc, dropWs, jsIsWs,
      trimChars, lowerChars, partTokens, splitWs, splitWsGo, numbersOfTokens, jsNumber,
      jsDecimal, takeDigits, digitsToNat, applyTenPow, assignByArity, Except.map]
  · norm_num +decide [parseCybertronianDate, splitArc, splitArcGo, afterArc, dropWs, jsIsWs,
      trimChars, lowerChars, partTokens, splitWs, splitWsGo, numbersOfTokens, jsNumber,
      jsDecimal, takeDigits, digitsToNat, applyTenPow, assignByArity, Except.map]
  · norm_num +decide [tokensOf, splitArc, splitArcGo, afterArc, dropWs, jsIsWs,
      trimChars, lowerChars, partTokens, splitWs, splitWsGo]

/-- Witness for C2: the failure of a non-numeric input is reflected in its
bad token through the characterization. -/
theorem parse_error_characterization_witness :
    (∃ t ∈ tokensOf "abc", jsNumber t = none) ∨
      ¬((tokensOf "abc").length = 1 ∨ (tokensOf "abc").length = 2 ∨
        (tokensOf "abc").length = 3 ∨ (tokensOf "abc").length = 4) :=
  (parse_error_characterization.1 "abc").1
    ⟨"Invalid number in date", by
      norm_num +decide [parseCybertronianDate, splitArc, splitArcGo, afterArc, dropWs, jsIsWs,
        trimChars, lowerChars, partTokens, splitWs, splitWsGo, numbersOfTokens, jsNumber,
        jsDecimal, takeDigits, digitsToNat, applyTenPow, assignByArity, Except.map]⟩

/-- Counterexample to C2 as stated: the empty string does not fail — its
token sequence is the single empty token, Number of the empty string is
zero, and the parser returns cycle zero. -/
theorem parse_empty_counterexample :
    parseCybertronianDate "" =
      .ok { klik := none, chord := none, cycle := some 0, solarCycle := none } := by
  norm_num +decide [parseCybertronianDate, splitArc, splitArcGo, afterArc, dropWs, jsIsWs,
    trimChars, lowerChars, partTokens, splitWs, splitWsGo, numbersOfTokens, jsNumber,
    jsDecimal, takeDigits, digitsToNat, applyTenPow, assignByArity, Except.map]

theorem fracDigitsAux_zero (fuel : ℕ) : fracDigitsAux fuel 0 = [] := by
  cases fuel <;> simp [fracDigitsAux]

/-- On a natural number value the JavaScript string of the number is its
plain decimal digits. -/
theorem jsNumToString_natCast (n : ℕ) : jsNumToString (n : ℚ) = String.mk (natToChars n) := by
  unfold jsNumToString
  have h0 : ¬((n : ℚ) < 0) := not_lt.2 (by positivity)
  have h3 : ⌊(n : ℚ)⌋ = (n : ℤ) := Int.floor_natCast n
  have h2 : |(n : ℚ)| = (n : ℚ) := abs_of_nonneg (by positivity)
  simp only [h0, if_false, h2, h3]
  have h4 : (n : ℚ) - ((n : ℤ) : ℚ) = 0 := by push_cast; ring
  rw [h4, fracDigitsAux_zero]
  simp

/-- C6 as amended: the formatter is a fall-through chain — the full shape
when all four fields are non-null; the three-field shape when solarCycle,
cycle and chord are non-null and klik is null; otherwise the klik-chord
shape whenever klik and chord are non-null, even when cycle or solarCycle
is also set; otherwise the cycle shape whenever cycle is non-null; and the
Invalid date sentinel exactly when cycle is null and not both klik and
chord are non-null, for example when only solarCycle is set.  It never
throws. -/
theorem format_shapes (d : CyberDate) :
    (d.solarCycle ≠ none ∧ d.cycle ≠ none ∧ d.chord ≠ none ∧ d.klik ≠ none →
      formatCyberDate d =
        jsNumToString (d.klik.getD 0) ++ " arc " ++ jsNumToString (d.chord.getD 0) ++ " " ++
          jsNumToString (d.cycle.getD 0) ++ " arc " ++ jsNumToString (d.solarCycle.getD 0)) ∧
    (d.solarCycle ≠ none ∧ d.cycle ≠ none ∧ d.chord ≠ none ∧ d.klik = none →
      formatCyberDate d =
        jsNumToString (d.chord.getD 0) ++ " " ++ jsNumToString (d.cycle.getD 0) ++ " arc " ++
          jsNumToString (d.solarCycle.getD 0)) ∧
    (d.klik ≠ none ∧ d.chord ≠ none ∧ ¬(d.solarCycle ≠ none ∧ d.cycle ≠ none) →
      formatCyberDate d =
        jsNumToString (d.klik.getD 0) ++ " arc " ++ jsNumToString (d.chord.getD 0)) ∧
    (d.cycle ≠ none ∧ ¬(d.klik ≠ none ∧ d.chord ≠ none) ∧
        ¬(d.solarCycle ≠ none ∧ d.chord ≠ none ∧ d.klik = none) →
      formatCyberDate d = jsNumToString (d.cycle.getD 0)) ∧
    (d.cycle = none ∧ ¬(d.klik ≠ none ∧ d.chord ≠ none) →
      formatCyberDate d = "Invalid date") ∧
    formatCyberDate { klik := none, chord := none, cycle := none, solarCycle := some 9 } =
      "Invalid date" := by
  refine ⟨?_, ?_, ?_, ?_, ?_, ?_⟩
  · rintro ⟨h1, h2, h3, h4⟩
    unfold formatCyberDate
    rw [if_pos ⟨h1, h2, h3, h4⟩]
  · rintro ⟨h1, h2, h3, h4⟩
    unfold formatCyberDate
    rw [if_neg (fun hb => hb.2.2.2 h4), if_pos ⟨h1, h2, h3, h4⟩]
  · rintro ⟨hk, hch, hno⟩
    unfold formatCyberDate
    rw [if_neg (fun hb => hno ⟨hb.1, hb.2.1⟩), if_neg (fun hb => hk hb.2.2.2),
      if_pos ⟨hk, hch⟩]
  · rintro ⟨hcy, hn3, hn2⟩
    unfold formatCyberDate
    rw [if_neg (fun hb => hn3 ⟨hb.2.2.2, hb.2.2.1⟩),
      if_neg (fun hb => hn2 ⟨hb.1, hb.2.2.1, hb.2.2.2⟩), if_neg hn3, if_pos hcy]
  · rintro ⟨hcy, hn3⟩
    unfold formatCyberDate
    rw [if_neg (fun hb => hn3 ⟨hb.2.2.2, hb.2.2.1⟩), if_neg (fun hb => hb.2.1 hcy),
      if_neg hn3, if_neg (fun hb => hb hcy)]
  · simp [formatCyberDate]

/-- Witness for C6: the klik-chord shape at a concrete two-field date. -/
theorem format_shapes_witness :
    formatCyberDate { klik := some 5, chord := some 3, cycle := none, solarCycle := none } =
      jsNumToString 5 ++ " arc " ++ jsNumToString 3 := by
  have h :=
    (format_shapes { klik := some 5, chord := some 3, cycle := none, solarCycle := none }).2.2.1
  simpa using h (by simp)

/-- Counterexample to C6 as stated: a date with klik, chord and cycle set but
solarCycle null falls through to the klik-chord shape, not to the Invalid
date sentinel the claim requires for that combination. -/
theorem format_fallthrough_counterexample :
    formatCyberDate { klik := some 1, chord := some 2, cycle := some 3, solarCycle := none } =
        "1 arc 2" ∧
      formatCyberDate { klik := some 1, chord := some 2, cycle := some 3, solarCycle := none } ≠
        "Invalid date" := by
  have e1 : jsNumToString (1 : ℚ) = "1" := by
    rw [show (1 : ℚ) = ((1 : ℕ) : ℚ) by norm_num, jsNumToString_natCast]
    decide
  have e2 : jsNumToString (2 : ℚ) = "2" := by
    rw [show (2 : ℚ) = ((2 : ℕ) : ℚ) by norm_num, jsNumToString_natCast]
    decide
  have h : formatCyberDate
      { klik := some 1, chord := some 2, cycle := some 3, solarCycle := none } = "1 arc 2" := by
    unfold formatCyberDate
    rw [if_neg (fun hb => hb.1 rfl), if_neg (fun hb => hb.1 rfl),
      if_pos ⟨Option.some_ne_none _, Option.some_ne_none _⟩]
    simp only [Option.getD_some]
    rw [e1, e2]
    decide
  exact ⟨h, by rw [h]; decide⟩

/-- The running total of the duration scan equals the starting total plus the
contributions of the matches it finds. -/
theorem phtGo_eq_sum (fuel : ℕ) : ∀ (l : List Char) (total : ℚ),
    phtGo fuel l total =
      total + ((phtMatchesGo fuel l).map (fun p => (p.1 : ℚ) * p.2)).sum := by
  induction fuel with
  | zero => intro l total; simp [phtGo, phtMatchesGo]
  | succ fuel ih =>
    intro l total
    cases l with
    | nil => simp [phtGo, phtMatchesGo]
    | cons c rest =>
      by_cases hd : c.isDigit = true
      · cases hm : matchUnit (dropWs (takeDigits (c :: rest)).2) with
        | some ur =>
          simp only [phtGo, phtMatchesGo, hd, if_true, hm]
          rw [ih]
          simp only [List.map_cons, List.sum_cons]
          ring
        | none =>
          simp only [phtGo, phtMatchesGo, hd, if_true, hm]
          exact ih rest total
      · simp only [phtGo, phtMatchesGo, hd, Bool.false_eq_true, if_false]
        exact ih rest total

/-- C7: parseHumanTime is the sum of value times unit-seconds over all
regex matches, zero when there is no match, and the spec example evaluates
to two years plus three weeks in seconds. -/
theorem parseHumanTime_match_sum :
    (∀ text : String,
      parseHumanTime text = ((phtMatches text).map (fun p => (p.1 : ℚ) * p.2)).sum) ∧
    (∀ text : String, phtMatches text = [] → parseHumanTime text = 0) ∧
    parseHumanTime "2 years, 3 weeks" = 2 * (365.25 * 86400) + 3 * 604800 := by
  have hmain : ∀ text : String,
      parseHumanTime text = ((phtMatches text).map (fun p => (p.1 : ℚ) * p.2)).sum := by
    intro text
    rw [parseHumanTime, phtMatches, phtGo_eq_sum, zero_add]
  refine ⟨hmain, ?_, ?_⟩
  · intro text h
    rw [hmain, h]
    simp
  · norm_num +decide [parseHumanTime, phtGo, takeDigits, matchUnit, matchUnitWord, matchWordCI,
      dropWs, jsIsWs, digitsToNat]

/-- Witness for C7: an input with no match sums to zero through the
characterization. -/
theorem parseHumanTime_match_sum_witness :
    phtMatches "hello" = [] ∧ parseHumanTime "hello" = 0 := by
  have h : phtMatches "hello" = [] := by
    norm_num +decide [phtMatches, phtMatchesGo, takeDigits, matchUnit, matchUnitWord,
      matchWordCI, dropWs, jsIsWs]
  exact ⟨h, parseHumanTime_match_sum.2.1 "hello" h⟩

/-- C9: add fails exactly on a non-positive parsed duration and otherwise
adds and reconverts; subtract fails exactly on a non-positive parsed
duration or a result below the origin and otherwise subtracts and
reconverts; subtracting two hundred seconds from the date at one hundred
seconds fails with the negative-result error. -/
theorem add_subtract_spec :
    (∀ (d : CyberDate) (t : String),
      ((∃ e, addEarthTime d t = .error e) ↔ parseHumanTime t ≤ 0) ∧
      (0 < parseHumanTime t →
        addEarthTime d t =
          .ok (earthSecondsToCyberDate (cyberDateToEarthSeconds d + parseHumanTime t))) ∧
      ((∃ e, subtractEarthTime d t = .error e) ↔
        (parseHumanTime t ≤ 0 ∨ cyberDateToEarthSeconds d - parseHumanTime t < 0)) ∧
      (0 < parseHumanTime t → 0 ≤ cyberDateToEarthSeconds d - parseHumanTime t →
        subtractEarthTime d t =
          .ok (earthSecondsToCyberDate (cyberDateToEarthSeconds d - parseHumanTime t)))) ∧
    subtractEarthTime (earthSecondsToCyberDate 100) "200 seconds" =
      .error "Resulting date is before the start of Cybertronian time." := by
  constructor
  · intro d t
    refine ⟨?_, ?_, ?_, ?_⟩
    · simp only [addEarthTime]
      by_cases h : parseHumanTime t ≤ 0
      · simp [h]
      · simp [h]
    · intro h
      simp only [addEarthTime]
      rw [if_neg (not_le.2 h)]
    · simp only [subtractEarthTime]
      by_cases h : parseHumanTime t ≤ 0
      · simp [h]
      · by_cases h2 : cyberDateToEarthSeconds d - parseHumanTime t < 0
        · simp [h, h2]
        · simp [h, h2]
    · intro h h2
      simp only [subtractEarthTime]
      rw [if_neg (not_le.2 h), if_neg (not_lt.2 h2)]
  · have hp : parseHumanTime "200 seconds" = 200 := by
      norm_num +decide [parseHumanTime, phtGo, takeDigits, matchUnit, matchUnitWord,
        matchWordCI, dropWs, jsIsWs, digitsToNat]
    have hs : cyberDateToEarthSeconds (earthSecondsToCyberDate 100) = 0 := by
      norm_num [cyberDateToEarthSeconds, earthSecondsToCyberDate, CYCLE, SOLAR_CYCLE_DAYS,
        SOLAR_CYCLE_YEARS, EARTH_YEAR_IN_DAYS]
    simp only [subtractEarthTime, hp, hs]
    norm_num

/-- Witness for C9: adding one second to the origin date through the
characterization. -/
theorem add_subtract_spec_witness :
    0 < parseHumanTime "1 second" ∧
      addEarthTime (earthSecondsToCyberDate 0) "1 second" =
        .ok (earthSecondsToCyberDate
          (cyberDateToEarthSeconds (earthSecondsToCyberDate 0) + parseHumanTime "1 second")) := by
  have hp : (0 : ℚ) < parseHumanTime "1 second" := by
    norm_num +decide [parseHumanTime, phtGo, takeDigits, matchUnit, matchUnitWord,
      matchWordCI, dropWs, jsIsWs, digitsToNat]
  exact ⟨hp, (add_subtract_spec.1 (earthSecondsToCyberDate 0) "1 second").2.1 hp⟩

end CyberTime
